import Mathlib

set_option maxRecDepth 8000

/-!
Shallow embedding of `src/main.cpp` (pixellink): a proof-of-concept chat that
frames a byte payload as `prefix ++ size ++ payload` and transports it as
3-byte pixel color triples written to, and read back from, a screen surface.

The Windows device context `HDC` is modelled by a `Surface` (the current
COLORREF value at every coordinate) together with a constant horizontal
resolution `W` (the value `GetDeviceCaps(hdc, HORZRES)` returns).  The target
is little-endian x86 Windows, so `memcpy` between `uint32_t` and byte buffers
is little-endian byte (de)serialization.  `uint32_t` values are modelled as
`Nat` with explicit `% 2 ^ 32` where C++ performs a narrowing conversion.
-/

/-- The 4-byte sentinel of line 30, `#define PREFIX 0xCAFEBABE`. -/
def PREFIX : Nat := 0xCAFEBABE

/-- Mirror of `struct Packet` (lines 32-39).  The C++ field `prefix` is a
reserved word in Lean, so it is spelled `prfx` here; `size` and `payload`
keep their names.  Both integer fields are `uint32_t`, modelled as `Nat`
(every constructed value stays below `2 ^ 32`). -/
structure Packet where
  prfx : Nat
  size : Nat
  payload : List Nat
  deriving Repr, DecidableEq

/-- Mirror of `Packet(const std::vector<unsigned char>& data)` (line 37):
`prefix = PREFIX`, `size = (uint32_t)data.size()` — a silent narrowing
modulo `2 ^ 32` when the vector is longer than the field can hold — and
`payload = data`. -/
def mkPacket (data : List Nat) : Packet :=
  { prfx := PREFIX, size := data.length % 2 ^ 32, payload := data }

/-- Mirror of the default constructor `Packet()` (line 38): `prefix = 0`,
`size = 0`, empty payload.  This is the value `decodePacket` returns when the
magic check fails. -/
def defaultPacket : Packet :=
  { prfx := 0, size := 0, payload := [] }

/-- Little-endian byte serialization of a `uint32_t`, as `memcpy` out of the
field produces on the x86 target (lines 55-56). -/
def toBytesLE (n : Nat) : List Nat :=
  [n % 256, n / 256 % 256, n / 65536 % 256, n / 16777216 % 256]

/-- Little-endian reassembly of bytes into a number, as `memcpy` into a
`uint32_t` performs (lines 100-101); bytes are reduced modulo 256, matching
`unsigned char` storage. -/
def fromBytesLE : List Nat → Nat
  | [] => 0
  | b :: rest => b % 256 + 256 * fromBytesLE rest

/-- The serialization block of `encodePacket` (lines 52-57): the buffer holds
the 4 prefix bytes, then the 4 size bytes, then the payload bytes. -/
def serializePacket (p : Packet) : List Nat :=
  toBytesLE p.prfx ++ toBytesLE p.size ++ p.payload

/-- The screen surface: the COLORREF value currently stored at each
coordinate.  `SetPixel` updates it pointwise and `GetPixel` reads it. -/
abbrev Surface := Nat → Nat → Nat

/-- The Windows macro `RGB(r, g, b)`: `r | (g << 8) | (b << 16)`, each
component first narrowed to a byte. -/
def RGB (r g b : Nat) : Nat := r % 256 + g % 256 * 256 + b % 256 * 65536

/-- The Windows macro `GetRValue`: low byte of a COLORREF. -/
def GetRValue (c : Nat) : Nat := c % 256

/-- The Windows macro `GetGValue`: second byte of a COLORREF. -/
def GetGValue (c : Nat) : Nat := c / 256 % 256

/-- The Windows macro `GetBValue`: third byte of a COLORREF. -/
def GetBValue (c : Nat) : Nat := c / 65536 % 256

/-- `GetPixel(hdc, x, y)` on the modelled surface. -/
def getPixel (s : Surface) (x y : Nat) : Nat := s x y

/-- `SetPixel(hdc, x, y, color)` on the modelled surface. -/
def setPixel (s : Surface) (x y c : Nat) : Surface :=
  fun a b => if a = x ∧ b = y then c else s a b

/-- The cursor advance shared by all three loops (lines 68-71, 94-97 and
116-119): `if (++x >= W) { x = 0; y++; }` with `W` the horizontal
resolution. -/
def advance (W x y : Nat) : Nat × Nat :=
  if x + 1 ≥ W then (0, y + 1) else (x + 1, y)

/-- Grouping of the serialized buffer into pixel triples, as the encode loop
(lines 60-63) reads `buffer[i]`, `buffer[i+1]`, `buffer[i+2]` with the
out-of-range positions of the final group replaced by `0`. -/
def toTriples : List Nat → List (Nat × Nat × Nat)
  | [] => []
  | [r] => [(r, 0, 0)]
  | [r, g] => [(r, g, 0)]
  | r :: g :: b :: rest => (r, g, b) :: toTriples rest

/-- COLORREF written for one triple: the `RGB(r, g, b)` of line 65. -/
def rgbTriple (t : Nat × Nat × Nat) : Nat := RGB t.1 t.2.1 t.2.2

/-- The pixel-writing loop of `encodePacket` (lines 60-72): each triple is
written with `SetPixel` at the cursor, then the cursor advances. -/
def writeTriples (W : Nat) : Surface → Nat → Nat → List (Nat × Nat × Nat) → Surface
  | s, _, _, [] => s
  | s, x, y, t :: rest =>
      writeTriples W (setPixel s x y (rgbTriple t)) (advance W x y).1 (advance W x y).2 rest

/-- Mirror of `encodePacket(hdc, startX, startY, packet)` (lines 46-73): the
serialized buffer is grouped into triples and written from the start
coordinate onward. -/
def encodePacket (W : Nat) (s : Surface) (startX startY : Nat) (p : Packet) : Surface :=
  writeTriples W s startX startY (toTriples (serializePacket p))

/-- Trip count of a `for (i = 0; i < bound; i += 3)` loop. -/
def tripleCount (bound : Nat) : Nat := (bound + 2) / 3

/-- One reading loop of `decodePacket`: `n` iterations of `GetPixel` at the
cursor, pushing the R, G and B bytes and advancing (lines 88-98 with
`n = tripleCount 8`, lines 110-120 with `n = tripleCount size`).  Returns the
collected bytes together with the final cursor position. -/
def readLoop (W : Nat) (s : Surface) : Nat → Nat → Nat → List Nat × Nat × Nat
  | x, y, 0 => ([], x, y)
  | x, y, n + 1 =>
      let c := getPixel s x y
      let rest := readLoop W s (advance W x y).1 (advance W x y).2 n
      (GetRValue c :: GetGValue c :: GetBValue c :: rest.1, rest.2)

/-- Mirror of `decodePacket(hdc, startX, startY)` (lines 77-124).  The header
loop runs `tripleCount 8 = 3` times, collecting 9 bytes; `prefix` is rebuilt
from bytes 0-3 and `size` from bytes 4-7.  On a prefix mismatch the default
packet is returned (line 105).  Otherwise the payload loop runs
`tripleCount size` times starting from the cursor the header loop left, and
the first `size` bytes it collects become the payload (line 122). -/
def decodePacket (W : Nat) (s : Surface) (startX startY : Nat) : Packet :=
  let h := readLoop W s startX startY (tripleCount 8)
  let pr := fromBytesLE (h.1.take 4)
  let sz := fromBytesLE ((h.1.drop 4).take 4)
  if pr ≠ PREFIX then defaultPacket
  else { prfx := pr, size := sz,
         payload := ((readLoop W s h.2.1 h.2.2 (tripleCount sz)).1).take sz }

/-- A single surface operation: one `SetPixel` or one `GetPixel` call. -/
inductive Op where
  | set (x y c : Nat)
  | get (x y : Nat)
  deriving Repr, DecidableEq

/-- Coordinate touched by an operation. -/
def opCoord : Op → Nat × Nat
  | Op.set x y _ => (x, y)
  | Op.get x y => (x, y)

/-- Whether an operation writes to the surface. -/
def Op.isSet : Op → Bool
  | Op.set _ _ _ => true
  | Op.get _ _ => false

/-- Effect of one operation on the surface: `SetPixel` updates the pixel,
`GetPixel` leaves the surface untouched. -/
def applyOp (s : Surface) : Op → Surface
  | Op.set x y c => setPixel s x y c
  | Op.get _ _ => s

/-- Effect of a sequence of surface operations. -/
def applyOps (s : Surface) (l : List Op) : Surface := l.foldl applyOp s

/-- Trace of the `SetPixel` calls issued by the encode loop. -/
def writeOps (W : Nat) : Nat → Nat → List (Nat × Nat × Nat) → List Op
  | _, _, [] => []
  | x, y, t :: rest =>
      Op.set x y (rgbTriple t) :: writeOps W (advance W x y).1 (advance W x y).2 rest

/-- Trace of the `GetPixel` calls issued by `n` iterations of a reading
loop. -/
def readOps (W : Nat) : Nat → Nat → Nat → List Op
  | _, _, 0 => []
  | x, y, n + 1 => Op.get x y :: readOps W (advance W x y).1 (advance W x y).2 n

/-- Trace of the `SetPixel` calls issued by `encodePacket`. -/
def encodeOps (W startX startY : Nat) (p : Packet) : List Op :=
  writeOps W startX startY (toTriples (serializePacket p))

/-- Trace of the `GetPixel` calls issued by `decodePacket` on surface `s`:
the header reads always happen; the payload reads happen only when the
prefix matches (line 104). -/
def decodeOps (W : Nat) (s : Surface) (startX startY : Nat) : List Op :=
  let h := readLoop W s startX startY (tripleCount 8)
  let pr := fromBytesLE (h.1.take 4)
  let sz := fromBytesLE ((h.1.drop 4).take 4)
  readOps W startX startY (tripleCount 8) ++
    if pr = PREFIX then readOps W h.2.1 h.2.2 (tripleCount sz) else []

/-- Sequence of cursor coordinates visited by `n` loop iterations starting at
`(x, y)`. -/
def path (W : Nat) : Nat → Nat → Nat → List (Nat × Nat)
  | _, _, 0 => []
  | x, y, n + 1 => (x, y) :: path W (advance W x y).1 (advance W x y).2 n

/-- Cursor position after `n` loop iterations starting at `(x, y)`. -/
def stepN (W : Nat) : Nat → Nat → Nat → Nat × Nat
  | x, y, 0 => (x, y)
  | x, y, n + 1 => stepN W (advance W x y).1 (advance W x y).2 n

/-- Outcome of `main` after reading the instance selector (lines 185-200):
selector `1` runs `senderLoop(hdc, 0, 0, 0, 10)` on a joined thread,
selector `2` runs `receiverLoop(hdc, 0, 0, 0, 10)`, and anything else prints
"Invalid instance number." once and falls through to `ReleaseDC` and process
exit, with no loop entered and no pixel operation performed. -/
inductive MainResult where
  | senderThread (txX txY rxX rxY : Nat)
  | receiverThread (rxX rxY txX txY : Nat)
  | configError (msg : String)
  deriving Repr, DecidableEq

/-- The dispatch of `main` on the entered instance selector (lines 190-200). -/
def mainDispatch (instanceSel : Int) : MainResult :=
  if instanceSel = 1 then MainResult.senderThread 0 0 0 10
  else if instanceSel = 2 then MainResult.receiverThread 0 0 0 10
  else MainResult.configError "Invalid instance number."

/-- An all-black surface — a screen no peer has written to. -/
def blankSurface : Surface := fun _ _ => 0

/-! ### Supporting lemmas: cursor arithmetic -/

theorem advance_eq (W x y : Nat) (hW : 0 < W) (hx : x < W) :
    advance W x y = ((x + 1) % W, y + (x + 1) / W) := by
  unfold advance
  by_cases h : W ≤ x + 1
  · have hxw : x + 1 = W := by omega
    simp [hxw, Nat.mod_self, Nat.div_self hW]
  · have h1 : x + 1 < W := by omega
    simp [Nat.mod_eq_of_lt h1, Nat.div_eq_of_lt h1]
    omega

theorem mod_shift (W m i : Nat) : (m % W + i) % W = (m + i) % W := by
  conv_rhs => rw [← Nat.mod_add_div m W]
  rw [Nat.add_right_comm, Nat.add_mul_mod_self_left]

theorem div_shift (W m i : Nat) (hW : 0 < W) :
    (m % W + i) / W + m / W = (m + i) / W := by
  conv_rhs => rw [← Nat.mod_add_div m W]
  rw [Nat.add_right_comm, Nat.add_mul_div_left _ _ hW]

theorem path_eq (W : Nat) (hW : 0 < W) :
    ∀ (n x y : Nat), x < W →
      path W x y n = (List.range n).map (fun i => ((x + i) % W, y + (x + i) / W)) := by
  intro n
  induction n with
  | zero => intro x y hx; simp [path]
  | succ n ih =>
    intro x y hx
    have hx1 : (x + 1) % W < W := Nat.mod_lt _ hW
    simp only [path, advance_eq W x y hW hx]
    rw [ih ((x + 1) % W) (y + (x + 1) / W) hx1, List.range_succ_eq_map, List.map_cons,
      List.map_map]
    congr 1
    · simp [Nat.mod_eq_of_lt hx, Nat.div_eq_of_lt hx]
    · apply List.map_congr_left
      intro i _
      have h1 : ((x + 1) % W + i) % W = (x + 1 + i) % W := mod_shift W (x + 1) i
      have h2 : ((x + 1) % W + i) / W + (x + 1) / W = (x + 1 + i) / W :=
        div_shift W (x + 1) i hW
      simp only [Function.comp, Nat.succ_eq_add_one, Prod.mk.injEq]
      have hxi : x + (i + 1) = x + 1 + i := by omega
      rw [hxi]
      omega

theorem path_length (W : Nat) : ∀ (n x y : Nat), (path W x y n).length = n := by
  intro n
  induction n with
  | zero => intro x y; simp [path]
  | succ n ih => intro x y; simp [path, ih]

theorem stepN_eq (W : Nat) (hW : 0 < W) :
    ∀ (n x y : Nat), x < W → stepN W x y n = ((x + n) % W, y + (x + n) / W) := by
  intro n
  induction n with
  | zero => intro x y hx; simp [stepN, Nat.mod_eq_of_lt hx, Nat.div_eq_of_lt hx]
  | succ n ih =>
    intro x y hx
    have hx1 : (x + 1) % W < W := Nat.mod_lt _ hW
    simp only [stepN, advance_eq W x y hW hx]
    rw [ih ((x + 1) % W) (y + (x + 1) / W) hx1]
    have h1 : ((x + 1) % W + n) % W = (x + 1 + n) % W := mod_shift W (x + 1) n
    have h2 : ((x + 1) % W + n) / W + (x + 1) / W = (x + 1 + n) / W :=
      div_shift W (x + 1) n hW
    simp only [Prod.mk.injEq]
    have hxn : x + (n + 1) = x + 1 + n := by omega
    rw [hxn]
    omega

/-! ### Supporting lemmas: loops and traces -/

theorem readLoop_snd (W : Nat) (s : Surface) :
    ∀ (n x y : Nat), (readLoop W s x y n).2 = stepN W x y n := by
  intro n
  induction n with
  | zero => intro x y; simp [readLoop, stepN]
  | succ n ih => intro x y; simp [readLoop, stepN, ih]

theorem readLoop_length (W : Nat) (s : Surface) :
    ∀ (n x y : Nat), (readLoop W s x y n).1.length = 3 * n := by
  intro n
  induction n with
  | zero => intro x y; simp [readLoop]
  | succ n ih => intro x y; simp [readLoop, ih]; omega

theorem readOps_map_coord (W : Nat) :
    ∀ (n x y : Nat), (readOps W x y n).map opCoord = path W x y n := by
  intro n
  induction n with
  | zero => intro x y; simp [readOps, path]
  | succ n ih => intro x y; simp [readOps, path, opCoord, ih]

theorem writeOps_map_coord (W : Nat) :
    ∀ (ts : List (Nat × Nat × Nat)) (x y : Nat),
      (writeOps W x y ts).map opCoord = path W x y ts.length := by
  intro ts
  induction ts with
  | nil => intro x y; simp [writeOps, path]
  | cons t rest ih => intro x y; simp [writeOps, path, opCoord, ih]

theorem setPixel_self (s : Surface) (x y c : Nat) : setPixel s x y c x y = c := by
  simp [setPixel]

theorem setPixel_other (s : Surface) (x y c a b : Nat) (h : ¬(a = x ∧ b = y)) :
    setPixel s x y c a b = s a b := by
  simp [setPixel, h]

theorem writeTriples_preserve (W : Nat) :
    ∀ (ts : List (Nat × Nat × Nat)) (s : Surface) (x y a b : Nat),
      (a, b) ∉ path W x y ts.length →
      writeTriples W s x y ts a b = s a b := by
  intro ts
  induction ts with
  | nil => intro s x y a b _; simp [writeTriples]
  | cons t rest ih =>
    intro s x y a b hmem
    simp only [List.length_cons, path, List.mem_cons] at hmem
    push_neg at hmem
    rw [writeTriples, ih _ _ _ a b hmem.2]
    apply setPixel_other
    intro hc
    exact hmem.1 (by simp [Prod.ext_iff, hc.1, hc.2])

theorem not_mem_path_start (W : Nat) (hW : 0 < W) (x y n : Nat) (hx : x < W) :
    (x, y) ∉ path W ((x + 1) % W) (y + (x + 1) / W) n := by
  intro hmem
  rw [path_eq W hW n _ _ (Nat.mod_lt _ hW)] at hmem
  simp only [List.mem_map, List.mem_range] at hmem
  obtain ⟨i, _, heq⟩ := hmem
  rw [Prod.mk.injEq] at heq
  have h1 : ((x + 1) % W + i) % W = (x + 1 + i) % W := mod_shift W (x + 1) i
  have h2 : ((x + 1) % W + i) / W + (x + 1) / W = (x + 1 + i) / W :=
    div_shift W (x + 1) i hW
  have hdiv : (x + 1 + i) / W = 0 := by omega
  have hlt : x + 1 + i < W := (Nat.div_eq_zero_iff hW).mp hdiv
  have hmod : (x + 1 + i) % W = x + 1 + i := Nat.mod_eq_of_lt hlt
  omega

theorem getPixel_writeTriples (W : Nat) (hW : 0 < W) :
    ∀ (ts : List (Nat × Nat × Nat)) (s : Surface) (x y i : Nat), x < W →
      i < ts.length →
      writeTriples W s x y ts ((x + i) % W) (y + (x + i) / W) =
        rgbTriple (ts.getD i (0, 0, 0)) := by
  intro ts
  induction ts with
  | nil => intro s x y i _ hi; simp at hi
  | cons t rest ih =>
    intro s x y i hx hi
    cases i with
    | zero =>
      simp only [Nat.add_zero, Nat.mod_eq_of_lt hx, Nat.div_eq_of_lt hx, Nat.add_zero,
        List.getD_cons_zero]
      rw [writeTriples, advance_eq W x y hW hx]
      rw [writeTriples_preserve W rest _ _ _ x y (not_mem_path_start W hW x y rest.length hx)]
      exact setPixel_self s x y (rgbTriple t)
    | succ i =>
      have h1 : ((x + 1) % W + i) % W = (x + 1 + i) % W := mod_shift W (x + 1) i
      have h2 : ((x + 1) % W + i) / W + (x + 1) / W = (x + 1 + i) / W :=
        div_shift W (x + 1) i hW
      have hxi : x + (i + 1) = x + 1 + i := by omega
      rw [writeTriples, advance_eq W x y hW hx]
      simp only [List.getD_cons_succ]
      have hy : y + (x + (i + 1)) / W = (y + (x + 1) / W) + ((x + 1) % W + i) / W := by
        rw [hxi]; omega
      have hxm : (x + (i + 1)) % W = ((x + 1) % W + i) % W := by rw [hxi, h1]
      rw [hxm, hy]
      exact ih _ ((x + 1) % W) (y + (x + 1) / W) i (Nat.mod_lt _ hW)
        (by simpa using Nat.lt_of_succ_lt_succ (by simpa using hi))

/-! ### Supporting lemmas: bytes and triples -/

theorem GetRValue_RGB (r g b : Nat) : GetRValue (RGB r g b) = r % 256 := by
  simp [GetRValue, RGB]
  omega

theorem GetGValue_RGB (r g b : Nat) : GetGValue (RGB r g b) = g % 256 := by
  simp [GetGValue, RGB]
  omega

theorem GetBValue_RGB (r g b : Nat) : GetBValue (RGB r g b) = b % 256 := by
  simp [GetBValue, RGB]
  omega

theorem toTriples_length : ∀ l : List Nat, (toTriples l).length = (l.length + 2) / 3
  | [] => by simp [toTriples]
  | [r] => by simp [toTriples]
  | [r, g] => by simp [toTriples]
  | r :: g :: b :: rest => by
      simp [toTriples, toTriples_length rest]
      omega

theorem serializePacket_length (p : Packet) :
    (serializePacket p).length = 8 + p.payload.length := by
  simp [serializePacket, toBytesLE]
  omega

theorem fromBytesLE_toBytesLE (n : Nat) (h : n < 2 ^ 32) :
    fromBytesLE (toBytesLE n) = n := by
  simp [fromBytesLE, toBytesLE]
  omega

theorem readLoop_writeTriples (W : Nat) (hW : 0 < W) :
    ∀ (n : Nat) (ts : List (Nat × Nat × Nat)) (s : Surface) (x y : Nat), x < W →
      n ≤ ts.length →
      (readLoop W (writeTriples W s x y ts) x y n).1 =
        ((ts.take n).map (fun t => [t.1 % 256, t.2.1 % 256, t.2.2 % 256])).flatten := by
  intro n
  induction n with
  | zero => intro ts s x y _ _; simp [readLoop]
  | succ n ih =>
    intro ts s x y hx hn
    match ts with
    | [] => simp at hn
    | t :: rest =>
      have hhead : writeTriples W s x y (t :: rest) x y = rgbTriple t := by
        rw [writeTriples, advance_eq W x y hW hx]
        rw [writeTriples_preserve W rest _ _ _ x y (not_mem_path_start W hW x y rest.length hx)]
        exact setPixel_self s x y (rgbTriple t)
      have hrec :
          (readLoop W (writeTriples W s x y (t :: rest)) (advance W x y).1 (advance W x y).2 n).1 =
            ((rest.take n).map (fun t => [t.1 % 256, t.2.1 % 256, t.2.2 % 256])).flatten := by
        rw [writeTriples, advance_eq W x y hW hx]
        exact ih rest (setPixel s x y (rgbTriple t)) ((x + 1) % W) (y + (x + 1) / W)
          (Nat.mod_lt _ hW) (by simpa using hn)
      simp only [readLoop, getPixel, hrec]
      rw [hhead]
      simp [rgbTriple, GetRValue_RGB, GetGValue_RGB, GetBValue_RGB]

theorem serializePacket_mk_cons (c : Nat) (P2 : List Nat)
    (hm : (c :: P2).length % 2 ^ 32 = (c :: P2).length) :
    serializePacket (mkPacket (c :: P2)) =
      190 :: 186 :: 254 :: 202 :: (c :: P2).length % 256 :: (c :: P2).length / 256 % 256 ::
      (c :: P2).length / 65536 % 256 :: (c :: P2).length / 16777216 % 256 :: c :: P2 := by
  simp only [serializePacket, mkPacket, hm, toBytesLE]
  norm_num [PREFIX]

theorem toTriples_nine (a0 a1 a2 a3 c : Nat) (P2 : List Nat) :
    toTriples (190 :: 186 :: 254 :: 202 :: a0 :: a1 :: a2 :: a3 :: c :: P2) =
      (190, 186, 254) :: (202, a0, a1) :: (a2, a3, c) :: toTriples P2 := by
  simp [toTriples]

theorem take_three_cons (t0 t1 t2 : Nat × Nat × Nat) (rest : List (Nat × Nat × Nat)) :
    List.take 3 (t0 :: t1 :: t2 :: rest) = [t0, t1, t2] := rfl

theorem nine_take_four (b0 b1 b2 b3 b4 b5 b6 b7 b8 : Nat) :
    List.take 4 [b0, b1, b2, b3, b4, b5, b6, b7, b8] = [b0, b1, b2, b3] := rfl

theorem nine_drop_four_take_four (b0 b1 b2 b3 b4 b5 b6 b7 b8 : Nat) :
    List.take 4 (List.drop 4 [b0, b1, b2, b3, b4, b5, b6, b7, b8]) = [b4, b5, b6, b7] := rfl

/-- Header recovery: when a packet built from a payload `P` of in-range length
has been encoded at `(x0, y0)`, the 9 header bytes the decode header loop reads
back yield `prefix = PREFIX` (bytes 0-3) and `size = P.length` (bytes 4-7). -/
theorem decode_header_of_encode (W x0 y0 : Nat) (s : Surface) (P : List Nat)
    (hW : 0 < W) (hx : x0 < W) (hP : P.length < 2 ^ 32) :
    fromBytesLE (((readLoop W (encodePacket W s x0 y0 (mkPacket P)) x0 y0
        (tripleCount 8)).1).take 4) = PREFIX ∧
    fromBytesLE ((((readLoop W (encodePacket W s x0 y0 (mkPacket P)) x0 y0
        (tripleCount 8)).1).drop 4).take 4) = P.length := by
  have hm : P.length % 2 ^ 32 = P.length := Nat.mod_eq_of_lt hP
  have hlen : 3 ≤ (toTriples (serializePacket (mkPacket P))).length := by
    rw [toTriples_length, serializePacket_length]
    simp [mkPacket]
    omega
  have h38 : tripleCount 8 = 3 := rfl
  have hread := readLoop_writeTriples W hW 3 (toTriples (serializePacket (mkPacket P)))
    s x0 y0 hx hlen
  simp only [encodePacket, h38, hread]
  cases P with
  | nil => decide
  | cons c P2 =>
    rw [serializePacket_mk_cons c P2 hm, toTriples_nine, take_three_cons]
    simp only [List.map_cons, List.map_nil, List.flatten_cons, List.flatten_nil,
      List.cons_append, List.nil_append, List.append_nil]
    rw [nine_take_four, nine_drop_four_take_four]
    constructor
    · norm_num [fromBytesLE, PREFIX]
    · simp only [fromBytesLE, List.length_cons]
      simp only [List.length_cons] at hP
      omega

theorem writeOps_length (W : Nat) (ts : List (Nat × Nat × Nat)) (x y : Nat) :
    (writeOps W x y ts).length = ts.length := by
  have h := congrArg List.length (writeOps_map_coord W ts x y)
  simpa [path_length] using h

theorem applyOps_append (s : Surface) (l1 l2 : List Op) :
    applyOps s (l1 ++ l2) = applyOps (applyOps s l1) l2 := by
  simp [applyOps, List.foldl_append]

theorem applyOps_readOps (W : Nat) :
    ∀ (n x y : Nat) (s0 : Surface), applyOps s0 (readOps W x y n) = s0 := by
  intro n
  induction n with
  | zero => intro x y s0; simp [readOps, applyOps]
  | succ n ih =>
    intro x y s0
    rw [readOps]
    have hstep : applyOps s0 (Op.get x y :: readOps W (advance W x y).1 (advance W x y).2 n) =
        applyOps s0 (readOps W (advance W x y).1 (advance W x y).2 n) := rfl
    rw [hstep, ih]

theorem readOps_filter_isSet (W : Nat) :
    ∀ (n x y : Nat), (readOps W x y n).filter Op.isSet = [] := by
  intro n
  induction n with
  | zero => intro x y; simp [readOps]
  | succ n ih => intro x y; simp [readOps, List.filter, Op.isSet, ih]

theorem mkPacket_size (data : List Nat) : (mkPacket data).size = data.length % 2 ^ 32 := rfl

theorem mkPacket_payload (data : List Nat) : (mkPacket data).payload = data := rfl

/-! ### Claim theorems -/

/-- Claim C1 (refuted by the code — code bug): the round-trip property fails.
Encoding the payload `[0x41, 0x42, 0x43]` at `(0, 0)` on a blank surface of
width 100 and decoding from the same start coordinate recovers the magic and
the length, but the payload comes back as `[0x42, 0x43, 0x00]`, not
`[0x41, 0x42, 0x43]`: the header read loop consumes 3 whole pixels (9 bytes)
while the serialized header is only 8 bytes long, so the payload read starts
one byte late, dropping the first payload byte and appending one stray byte. -/
theorem C1_roundtrip_failure :
    decodePacket 100 (encodePacket 100 blankSurface 0 0 (mkPacket [65, 66, 67])) 0 0 =
      { prfx := PREFIX, size := 3, payload := [66, 67, 0] } ∧
    (decodePacket 100 (encodePacket 100 blankSurface 0 0 (mkPacket [65, 66, 67])) 0 0).payload ≠
      [65, 66, 67] := by
  decide

/-- Claim C2 (counterexample): the claim says the payload `[0x41, 0x42, 0x43]`
is written as one pixel triple `(0x41, 0x42, 0x43)` immediately following
exactly two header pixel triples, i.e. that the pixel written third (index 2,
coordinate `(2, 0)` when encoding at the origin) holds `RGB(0x41, 0x42, 0x43)`.
It actually holds `RGB(0, 0, 0x41)`: the 8-byte header ends inside the third
pixel. -/
theorem C2_pixel_layout_counterexample :
    getPixel (encodePacket 100 blankSurface 0 0 (mkPacket [65, 66, 67])) 2 0 ≠
      RGB 65 66 67 := by
  decide

/-- Claim C2 (amended): encoding `[0x41, 0x42, 0x43]` serializes to
`magic(4 bytes, little-endian 0xCAFEBABE) ++ 0x00000003(little-endian) ++
[0x41, 0x42, 0x43]`, and these 11 bytes are written as four pixel triples
`(0xBE, 0xBA, 0xFE), (0xCA, 0x03, 0x00), (0x00, 0x00, 0x41),
(0x42, 0x43, 0x00)`: the payload spans the last byte of the third triple and
the first two bytes of the fourth (zero-padded), not a single triple after two
header triples. -/
theorem C2_scenario_a_layout :
    serializePacket (mkPacket [65, 66, 67]) =
      [190, 186, 254, 202] ++ [3, 0, 0, 0] ++ [65, 66, 67] ∧
    toTriples (serializePacket (mkPacket [65, 66, 67])) =
      [(190, 186, 254), (202, 3, 0), (0, 0, 65), (66, 67, 0)] ∧
    getPixel (encodePacket 100 blankSurface 0 0 (mkPacket [65, 66, 67])) 0 0 =
      rgbTriple (190, 186, 254) ∧
    getPixel (encodePacket 100 blankSurface 0 0 (mkPacket [65, 66, 67])) 1 0 =
      rgbTriple (202, 3, 0) ∧
    getPixel (encodePacket 100 blankSurface 0 0 (mkPacket [65, 66, 67])) 2 0 =
      rgbTriple (0, 0, 65) ∧
    getPixel (encodePacket 100 blankSurface 0 0 (mkPacket [65, 66, 67])) 3 0 =
      rgbTriple (66, 67, 0) := by
  decide

/-- Claim C3 (refuted by the code — code bug): padding is not invisible.
Encoding the 2-byte payload `[0x41, 0x42]` pads the final pixel with a zero
byte; decoding returns a payload of the correct length 2, but because the
payload read starts one byte late it returns `[0x42, 0x00]` — the padding
zero byte appears in the decoded payload even though the original payload
contains no zero byte. -/
theorem C3_padding_leaks :
    decodePacket 100 (encodePacket 100 blankSurface 0 0 (mkPacket [65, 66])) 0 0 =
      { prfx := PREFIX, size := 2, payload := [66, 0] } ∧
    0 ∈ (decodePacket 100 (encodePacket 100 blankSurface 0 0 (mkPacket [65, 66])) 0 0).payload ∧
    0 ∉ [65, 66] := by
  decide

/-- Claim C4 (confirmed): if the first 4 bytes read back from the scan region
do not reassemble to the sentinel `PREFIX`, `decodePacket` returns the default
(invalid) packet — whose `prefix` field does not satisfy the magic check —
and its `GetPixel` trace is exactly the `tripleCount 8 = 3` header reads: the
payload-reading loop is never entered, whatever the remaining pixel content. -/
theorem C4_magic_rejection (W : Nat) (s : Surface) (x0 y0 : Nat)
    (h : fromBytesLE (((readLoop W s x0 y0 (tripleCount 8)).1).take 4) ≠ PREFIX) :
    decodePacket W s x0 y0 = defaultPacket ∧
    decodeOps W s x0 y0 = readOps W x0 y0 (tripleCount 8) ∧
    defaultPacket.prfx ≠ PREFIX := by
  refine ⟨?_, ?_, by decide⟩
  · simp only [decodePacket]
    rw [if_pos h]
  · simp only [decodeOps]
    rw [if_neg h, List.append_nil]

/-- Witness for C4 at a concrete input: a blank surface of width 100 read from
the origin has first four bytes 0, 0, 0, 0, whose reassembly 0 is not the
sentinel. -/
theorem C4_magic_rejection_witness :
    (fromBytesLE (((readLoop 100 blankSurface 0 0 (tripleCount 8)).1).take 4) ≠ PREFIX) ∧
    (decodePacket 100 blankSurface 0 0 = defaultPacket ∧
     decodeOps 100 blankSurface 0 0 = readOps 100 0 0 (tripleCount 8) ∧
     defaultPacket.prfx ≠ PREFIX) :=
  ⟨by decide, C4_magic_rejection 100 blankSurface 0 0 (by decide)⟩

/-- Claim C8 (confirmed): any entered instance selector other than 1 or 2
makes `main` report the configuration error and fall through to process exit;
the result is the error report, not a sender or receiver loop, so no pixel
operation or message exchange happens. -/
theorem C8_invalid_selector (n : Int) (h1 : n ≠ 1) (h2 : n ≠ 2) :
    mainDispatch n = MainResult.configError "Invalid instance number." := by
  simp [mainDispatch, h1, h2]

/-- Witness for C8 at the concrete selector 3. -/
theorem C8_invalid_selector_witness :
    (3 : Int) ≠ 1 ∧ (3 : Int) ≠ 2 ∧
    mainDispatch 3 = MainResult.configError "Invalid instance number." :=
  ⟨by decide, by decide, C8_invalid_selector 3 (by decide) (by decide)⟩

/-- Claim C5 (counterexample): for the 1-byte payload `[7]` encoded at the
origin of a width-100 surface, the decode coordinate sequence is not the
encode coordinate sequence: encode writes ceil(9/3) = 3 pixels, while decode
reads 3 header pixels plus ceil(1/3) = 1 payload pixel — 4 coordinates, one
past the written region. -/
theorem C5_extra_read_counterexample :
    (decodeOps 100 (encodePacket 100 blankSurface 0 0 (mkPacket [7])) 0 0).map opCoord ≠
      (encodeOps 100 0 0 (mkPacket [7])).map opCoord := by
  decide

/-- Claim C5 (amended): for a start coordinate on the surface (`x0 < W`,
`0 < W`) and an in-range payload (`|P| < 2^32`): (1) encode writes pixel
triple `i` at `((x0 + i) % W, y0 + (x0 + i) / W)` for each of its
ceil((|P| + 8)/3) triples, exactly as claimed; (2) decode from the same start
visits that same coordinate formula at indices `0 ..< 3 + ceil(|P|/3)` — the
same sequence as encode when `|P| % 3 ≠ 1`, one extra coordinate when
`|P| % 3 = 1` (since 3 header pixels + ceil(|P|/3) payload pixels is one more
than ceil((|P| + 8)/3) exactly in that case); (3) every pixel of the written
region holds the triple encode put there, so decode recovers the written
per-pixel triples at every common coordinate. -/
theorem C5_cursor_wraparound (W x0 y0 : Nat) (s : Surface) (P : List Nat)
    (hW : 0 < W) (hx : x0 < W) (hP : P.length < 2 ^ 32) :
    ((encodeOps W x0 y0 (mkPacket P)).map opCoord =
      (List.range ((P.length + 10) / 3)).map (fun i => ((x0 + i) % W, y0 + (x0 + i) / W))) ∧
    ((decodeOps W (encodePacket W s x0 y0 (mkPacket P)) x0 y0).map opCoord =
      (List.range (3 + (P.length + 2) / 3)).map (fun i => ((x0 + i) % W, y0 + (x0 + i) / W))) ∧
    (∀ i, i < (P.length + 10) / 3 →
      getPixel (encodePacket W s x0 y0 (mkPacket P)) ((x0 + i) % W) (y0 + (x0 + i) / W) =
        rgbTriple ((toTriples (serializePacket (mkPacket P))).getD i (0, 0, 0))) := by
  have hts : (toTriples (serializePacket (mkPacket P))).length = (P.length + 10) / 3 := by
    rw [toTriples_length, serializePacket_length]
    simp only [mkPacket]
    omega
  refine ⟨?_, ?_, ?_⟩
  · rw [encodeOps, writeOps_map_coord, hts, path_eq W hW _ x0 y0 hx]
  · obtain ⟨hpr, hsz⟩ := decode_header_of_encode W x0 y0 s P hW hx hP
    have h38 : tripleCount 8 = 3 := rfl
    have hcur : (readLoop W (encodePacket W s x0 y0 (mkPacket P)) x0 y0 (tripleCount 8)).2 =
        ((x0 + 3) % W, y0 + (x0 + 3) / W) := by
      rw [readLoop_snd, h38, stepN_eq W hW 3 x0 y0 hx]
    have hx3 : (x0 + 3) % W < W := Nat.mod_lt _ hW
    have hops : decodeOps W (encodePacket W s x0 y0 (mkPacket P)) x0 y0 =
        readOps W x0 y0 (tripleCount 8) ++
          readOps W ((x0 + 3) % W) (y0 + (x0 + 3) / W) (tripleCount P.length) := by
      simp only [decodeOps, hpr, hsz, hcur]
      simp
    rw [hops, List.map_append, readOps_map_coord, readOps_map_coord, h38,
      path_eq W hW 3 x0 y0 hx,
      path_eq W hW (tripleCount P.length) ((x0 + 3) % W) (y0 + (x0 + 3) / W) hx3,
      List.range_add, List.map_append, List.map_map]
    have hk : tripleCount P.length = (P.length + 2) / 3 := rfl
    rw [hk]
    congr 1
    apply List.map_congr_left
    intro i _
    have h1 := mod_shift W (x0 + 3) i
    have h2 := div_shift W (x0 + 3) i hW
    simp only [Function.comp, Prod.mk.injEq]
    have h3 : x0 + (3 + i) = x0 + 3 + i := by omega
    rw [h3]
    omega
  · intro i hi
    rw [← hts] at hi
    simp only [encodePacket, getPixel]
    exact getPixel_writeTriples W hW _ s x0 y0 i hx hi

/-- Witness for C5 at width 10, origin start, payload `[1, 2, 3, 4]`, with
the per-pixel conclusion instantiated at triple index 3. -/
theorem C5_cursor_wraparound_witness :
    (0 : Nat) < 10 ∧
    ([1, 2, 3, 4] : List Nat).length < 2 ^ 32 ∧
    ((encodeOps 10 0 0 (mkPacket [1, 2, 3, 4])).map opCoord =
      (List.range ((([1, 2, 3, 4] : List Nat).length + 10) / 3)).map
        (fun i => ((0 + i) % 10, 0 + (0 + i) / 10))) ∧
    ((decodeOps 10 (encodePacket 10 blankSurface 0 0 (mkPacket [1, 2, 3, 4])) 0 0).map opCoord =
      (List.range (3 + (([1, 2, 3, 4] : List Nat).length + 2) / 3)).map
        (fun i => ((0 + i) % 10, 0 + (0 + i) / 10))) ∧
    (getPixel (encodePacket 10 blankSurface 0 0 (mkPacket [1, 2, 3, 4])) ((0 + 3) % 10)
        (0 + (0 + 3) / 10) =
      rgbTriple ((toTriples (serializePacket (mkPacket [1, 2, 3, 4]))).getD 3 (0, 0, 0))) :=
  ⟨by decide, by decide,
   (C5_cursor_wraparound 10 0 0 blankSurface [1, 2, 3, 4] (by decide) (by decide) (by decide)).1,
   (C5_cursor_wraparound 10 0 0 blankSurface [1, 2, 3, 4] (by decide) (by decide) (by decide)).2.1,
   (C5_cursor_wraparound 10 0 0 blankSurface [1, 2, 3, 4] (by decide) (by decide)
     (by decide)).2.2 3 (by decide)⟩

/-- Claim C6 (refuted by the code — code bug): a payload of `2^32` bytes is
not rejected.  The `Packet` constructor silently truncates the length field
to `2^32 % 2^32 = 0`, and `encodePacket` has no rejection path at all: it
still performs its full sequence of `(2^32 + 10) / 3` pixel writes. -/
theorem C6_oversize_truncated_not_rejected :
    (mkPacket (List.replicate (2 ^ 32) 0)).size = 0 ∧
    (List.replicate (2 ^ 32) (0 : Nat)).length = 2 ^ 32 ∧
    (encodeOps 1920 0 0 (mkPacket (List.replicate (2 ^ 32) 0))).length = (2 ^ 32 + 10) / 3 := by
  refine ⟨?_, List.length_replicate _ _, ?_⟩
  · rw [mkPacket_size, List.length_replicate]
    exact Nat.mod_self _
  · rw [encodeOps, writeOps_length, toTriples_length, serializePacket_length,
      mkPacket_payload, List.length_replicate]
    norm_num

/-- Claim C7 (counterexample): a `Packet` built from a payload of `2^32`
bytes has `size = 2^32 % 2^32 = 0`, not the true payload length `2^32`. -/
theorem C7_size_field_counterexample :
    (mkPacket (List.replicate (2 ^ 32) 1)).size ≠
      (mkPacket (List.replicate (2 ^ 32) 1)).payload.length := by
  rw [mkPacket_size, mkPacket_payload, List.length_replicate]
  norm_num

/-- Claim C7 (amended): every `Packet` built from a payload of fewer than
`2^32` bytes has `size` equal to its payload length, and every packet
`decodePacket` returns — the invalid default as well as a successfully decoded
frame — has `size` equal to its payload length (a successful decode copies
exactly `size` of the collected bytes into the payload). -/
theorem C7_size_invariant (W : Nat) (s : Surface) (x0 y0 : Nat) (data : List Nat)
    (hdata : data.length < 2 ^ 32) :
    (mkPacket data).size = (mkPacket data).payload.length ∧
    (decodePacket W s x0 y0).size = (decodePacket W s x0 y0).payload.length := by
  constructor
  · rw [mkPacket_size, mkPacket_payload]
    exact Nat.mod_eq_of_lt hdata
  · by_cases hc : fromBytesLE (((readLoop W s x0 y0 (tripleCount 8)).1).take 4) ≠ PREFIX
    · simp only [decodePacket]
      rw [if_pos hc]
      rfl
    · simp only [decodePacket]
      rw [if_neg hc]
      simp only [List.length_take, readLoop_length, tripleCount, inf_eq_min]
      omega

/-- Witness for C7 at the 3-byte payload `[1, 2, 3]` and a blank width-100
surface decoded from the origin. -/
theorem C7_size_invariant_witness :
    ([1, 2, 3] : List Nat).length < 2 ^ 32 ∧
    ((mkPacket [1, 2, 3]).size = (mkPacket [1, 2, 3]).payload.length ∧
     (decodePacket 100 blankSurface 0 0).size =
       (decodePacket 100 blankSurface 0 0).payload.length) :=
  ⟨by decide, C7_size_invariant 100 blankSurface 0 0 [1, 2, 3] (by decide)⟩

/-- Claim C10 (confirmed): `decodePacket` issues no `SetPixel` — its operation
trace contains no write — so replaying its trace on the surface leaves every
pixel unchanged, and decoding the same unchanged region again returns the
same packet: a received frame is never consumed or cleared. -/
theorem C10_decode_is_pure (W : Nat) (s : Surface) (x0 y0 : Nat) :
    applyOps s (decodeOps W s x0 y0) = s ∧
    (decodeOps W s x0 y0).filter Op.isSet = [] ∧
    decodePacket W (applyOps s (decodeOps W s x0 y0)) x0 y0 = decodePacket W s x0 y0 := by
  have h1 : applyOps s (decodeOps W s x0 y0) = s := by
    simp only [decodeOps]
    rw [applyOps_append, applyOps_readOps]
    split
    · rw [applyOps_readOps]
    · rfl
  have h2 : (decodeOps W s x0 y0).filter Op.isSet = [] := by
    simp only [decodeOps, List.filter_append, readOps_filter_isSet, List.nil_append]
    split <;> simp [readOps_filter_isSet]
  exact ⟨h1, h2, by rw [h1]⟩
